import Mathlib

/-!
Shallow embedding of the processor-sheet conversion pipeline
(`proc_parser.py` of gamozolabs/server_simulator_2020).

The program reads semicolon-delimited spec sheets, extracts typed fields
with three regular expressions, classifies the processor family, normalizes
the memory speed, and prints one structured-literal block per qualifying
row.  Machine strings are Lean `String`s; regular-expression scans are
implemented as explicit character-list scanners matching the Python `re`
semantics of the three patterns used by the source; fallible operations
(`dict[key]`, `findall(...)[0]`, `int(...)`, `max(...)`, failing asserts)
are modelled with `Option`/`Except`.
-/

namespace Sim2020

/-- Numeric value of a decimal digit character. -/
def digitVal (c : Char) : Nat := c.toNat - 48

/-- Value of a digit run, as Python `int` on a digit string. -/
def natOfDigits (l : List Char) : Nat := l.foldl (fun a c => a * 10 + digitVal c) 0

/-- Accumulator pass extracting all maximal digit runs, the matches of
the pattern `([0-9]+)` (source regex `numberre`, line 23). -/
def numberRunsAux : List Char → List Char → List (List Char)
  | [], acc => if acc.isEmpty then [] else [acc.reverse]
  | c :: cs, acc =>
    if c.isDigit then numberRunsAux cs (c :: acc)
    else if acc.isEmpty then numberRunsAux cs []
    else acc.reverse :: numberRunsAux cs []

/-- All maximal digit runs of a character list, in order. -/
def numberRuns (l : List Char) : List (List Char) := numberRunsAux l []

/-- Python `numberre.findall(s)` composed with `int`: every integer
appearing in `s`, in order. -/
def numberFindall (s : String) : List Nat := (numberRuns s.data).map natOfDigits

/-- Python `max` on a list of integers: `none` on the empty list
(where Python raises `ValueError`). -/
def listMax : List Nat → Option Nat
  | [] => none
  | x :: xs => some (xs.foldl Nat.max x)

/-- Accumulator pass for splitting on a separator character. -/
def splitAux (sep : Char) : List Char → List Char → List (List Char)
  | [], acc => [acc.reverse]
  | c :: cs, acc =>
    if c = sep then acc.reverse :: splitAux sep cs []
    else splitAux sep cs (c :: acc)

/-- Python `s.split(sep)` for a one-character separator (source line 30
splits each line on `";"`). -/
def splitOnChar (sep : Char) (l : List Char) : List (List Char) := splitAux sep l []

/-- Accumulator pass for Python `str.splitlines` restricted to `\n`
line boundaries: no trailing empty line is produced. -/
def splitLinesAux : List Char → List Char → List (List Char)
  | [], acc => if acc.isEmpty then [] else [acc.reverse]
  | c :: cs, acc =>
    if c = '\n' then acc.reverse :: splitLinesAux cs []
    else splitLinesAux cs (c :: acc)

/-- Python `s.splitlines()` (source line 29), for `\n`-delimited text. -/
def pySplitlines (s : String) : List (List Char) := splitLinesAux s.data []

/-- Source lines 28-30: split the raw file text into lines and each line
into semicolon-separated cells. -/
def parseFile (s : String) : List (List String) :=
  (pySplitlines s).map (fun lc => (splitOnChar ';' lc).map String.mk)

/-- Whether `pat` is a leading segment of `l` (character comparison). -/
def startsWithChars : List Char → List Char → Bool
  | _, [] => true
  | [], _ :: _ => false
  | c :: cs, p :: ps => c = p && startsWithChars cs ps

/-- Whether `pat` occurs contiguously anywhere inside `l`. -/
def hasInfix (pat : List Char) : List Char → Bool
  | [] => startsWithChars [] pat
  | c :: cs => startsWithChars (c :: cs) pat || hasInfix pat cs

/-- Row dictionary built by source line 36, `dict(zip(column_header, data))`:
pairs of column name and cell text, later pairs overriding earlier ones. -/
def pyDict (hdr cells : List String) : List (String × String) := hdr.zip cells

/-- Python `d[k]` on the row dictionary: the value of the last binding of
`k`, `none` when the key is absent (Python raises `KeyError`). -/
def pyGet (d : List (String × String)) (k : String) : Option String :=
  d.reverse.lookup k

/-- Python `int(s)`: strip surrounding whitespace, accept an optional sign
followed by one or more decimal digits, fail otherwise. -/
def pyInt (s : String) : Option Int :=
  match ((s.data.dropWhile Char.isWhitespace).reverse.dropWhile Char.isWhitespace).reverse with
  | '-' :: ds =>
    if !ds.isEmpty && ds.all Char.isDigit then some (-(natOfDigits ds : Int)) else none
  | '+' :: ds =>
    if !ds.isEmpty && ds.all Char.isDigit then some ((natOfDigits ds : Int)) else none
  | ds =>
    if !ds.isEmpty && ds.all Char.isDigit then some ((natOfDigits ds : Int)) else none

/-- Body of the pattern `pricere`, source line 21, after the `$` anchor:
one or more digits, a dot, then exactly two digits; returns the integer
part and the two-digit fractional part.  Greedy digit matching needs no
backtracking since a shorter digit run would put a digit where the dot is
required. -/
def matchCurrencyBody (l : List Char) : Option (Nat × Nat) :=
  let ds := l.takeWhile Char.isDigit
  if ds.isEmpty then none else
  match l.dropWhile Char.isDigit with
  | '.' :: a :: b :: _ =>
    if a.isDigit && b.isDigit then some (natOfDigits ds, digitVal a * 10 + digitVal b) else none
  | _ => none

/-- Left-to-right scan for the first match of `pricere`
(`\$([0-9]+\.[0-9]\x7b2\x7d)`, source line 21), the value returned in
whole cents so that floating point is avoided; every price the program
manipulates has exactly two fractional digits. -/
def priceScanAux : List Char → Option Nat
  | [] => none
  | c :: cs =>
    if c = '$' then
      match matchCurrencyBody cs with
      | some (n, f) => some (n * 100 + f)
      | none => priceScanAux cs
    else priceScanAux cs

/-- The synthetic suffix appended at source line 38 before price matching. -/
def priceSuffix : List Char := "$10000000.00".data

/-- Source line 38: `float(pricere.findall(cell + "$10000000.00")[0])`,
in cents; `none` models the `IndexError` of a failed `[0]` (never reached,
see the totality lemma below). -/
def extractPrice (cell : String) : Option Nat :=
  priceScanAux (cell.data ++ priceSuffix)

/-- Match of `ghzre` (`([0-9]+\.[0-9]\x7b2\x7d) GHz`, source line 22) anchored
at the head of `l`: digits, a dot, two digits, then the literal ` GHz`;
the returned group excludes the unit marker. -/
def matchGhzAt (l : List Char) : Option (List Char) :=
  let ds := l.takeWhile Char.isDigit
  if ds.isEmpty then none else
  match l.dropWhile Char.isDigit with
  | '.' :: a :: b :: ' ' :: 'G' :: 'H' :: 'z' :: _ =>
    if a.isDigit && b.isDigit then some (ds ++ '.' :: a :: [b]) else none
  | _ => none

/-- Left-to-right scan for the first match of `ghzre`, as in
`ghzre.findall(cell)[0]` at source line 73. -/
def ghzScan : List Char → Option (List Char)
  | [] => none
  | c :: cs =>
    match matchGhzAt (c :: cs) with
    | some g => some g
    | none => ghzScan cs

/-- Source lines 46-57: exact-string classification of the
`Product Collection` cell into a family tag; `none` models the
always-false `assert pc != pc` reached on any other string. -/
def familyTag (pc : String) : Option String :=
  if pc = "Intel® Xeon® Scalable Processors" then some "XeonScalable"
  else if pc = "2nd Generation Intel® Xeon® Scalable Processors" then some "XeonScalableV2"
  else if pc = "Intel® Xeon® W Processor" then some "XeonW"
  else if pc = "Intel® Xeon® D Processor" then some "XeonD"
  else none

/-- Source lines 67-68: the single hard-coded memory-speed correction. -/
def memfix (n : Nat) : Nat := if n = 2666 then 2667 else n

/-- Fatal conditions of the run, matching the error taxonomy of the
program: missing dictionary key, failed pattern or integer conversion,
and the three explicit asserts. -/
inductive Err where
  | keyError : String → Err
  | malformedField : Err
  | duplicateName : String → Err
  | invalidScalability : Nat → Err
  | unrecognizedFamily : String → Err
deriving DecidableEq, Repr

/-- One emitted record, the argument tuple of `formstring.format` at
source lines 70-81.  `priceCents` holds the price in cents, `clockRate`
the raw regex group text. -/
structure Block where
  name : String
  priceCents : Nat
  clockRate : String
  cores : Int
  threads : Int
  avx512FmaUnits : Int
  typ : String
  scalability : Nat
  maxMemSpeed : Nat
  memChannels : Int
deriving DecidableEq, Repr

/-- Source lines 36-82, one loop iteration over a row dictionary: price
extraction, the empty-socket skip, the duplicate-name assert, family
classification, the scalability assert, memory normalization, and the
remaining field extractions, in source evaluation order.  Returns the
emitted block (`none` for a skipped row) and the updated seen-name set. -/
def processDict (obs : List String) (d : List (String × String)) :
    Except Err (Option Block × List String) :=
  match pyGet d "Recommended Customer Price" with
  | none => .error (.keyError "Recommended Customer Price")
  | some priceCell =>
  match extractPrice priceCell with
  | none => .error .malformedField
  | some price =>
  match pyGet d "Sockets Supported" with
  | none => .error (.keyError "Sockets Supported")
  | some sockets =>
  if sockets = "" then .ok (none, obs) else
  match pyGet d "Name" with
  | none => .error (.keyError "Name")
  | some nm =>
  if nm ∈ obs then .error (.duplicateName nm) else
  match pyGet d "Product Collection" with
  | none => .error (.keyError "Product Collection")
  | some pc =>
  match familyTag pc with
  | none => .error (.unrecognizedFamily pc)
  | some tag =>
  match pyGet d "Scalability" with
  | none => .error (.keyError "Scalability")
  | some scalCell =>
  match numberFindall scalCell with
  | [] => .error .malformedField
  | scale :: _ =>
  if scale = 1 ∨ scale = 2 ∨ scale = 4 ∨ scale = 8 then
    match pyGet d "Maximum Memory Speed" with
    | none => .error (.keyError "Maximum Memory Speed")
    | some mm =>
    match pyGet d "Memory Types" with
    | none => .error (.keyError "Memory Types")
    | some mt =>
    match listMax (numberFindall (mm ++ mt)) with
    | none => .error .malformedField
    | some mms =>
    match pyGet d "Max # of Memory Channels" with
    | none => .error (.keyError "Max # of Memory Channels")
    | some mcCell =>
    match pyInt mcCell with
    | none => .error .malformedField
    | some memChan =>
    match pyGet d "Processor Base Frequency" with
    | none => .error (.keyError "Processor Base Frequency")
    | some freq =>
    match ghzScan freq.data with
    | none => .error .malformedField
    | some clock =>
    match pyGet d "# of Cores" with
    | none => .error (.keyError "# of Cores")
    | some coresCell =>
    match pyInt coresCell with
    | none => .error .malformedField
    | some cores =>
    match pyGet d "# of Threads" with
    | none => .error (.keyError "# of Threads")
    | some threadsCell =>
    match pyInt threadsCell with
    | none => .error .malformedField
    | some threads =>
    match pyGet d "# of AVX-512 FMA Units" with
    | none => .error (.keyError "# of AVX-512 FMA Units")
    | some fmaCell =>
    match pyInt fmaCell with
    | none => .error .malformedField
    | some fma =>
    .ok (some ⟨nm, price, String.mk clock, cores, threads, fma,
               tag ++ "_" ++ sockets, scale, memfix mms, memChan⟩, nm :: obs)
  else .error (.invalidScalability scale)

/-- Row processing from raw header and cell lists (source line 36 builds
the dictionary from `zip(column_header, data)`). -/
def processRow (obs : List String) (hdr cells : List String) :
    Except Err (Option Block × List String) :=
  processDict obs (pyDict hdr cells)

/-- Result of a (possibly aborted) run: the blocks printed so far, the
seen-name set, and the fatal condition that stopped the run, if any. -/
structure RunRes where
  out : List Block
  obs : List String
  err : Option Err
deriving DecidableEq, Repr

/-- The row loop of `process` (source lines 35-82): rows are handled in
order, output is appended as it is printed, and the first fatal condition
stops everything. -/
def runRows (obs : List String) (out : List Block) (hdr : List String) :
    List (List String) → RunRes
  | [] => ⟨out, obs, none⟩
  | r :: rs =>
    match processRow obs hdr r with
    | .error e => ⟨out, obs, some e⟩
    | .ok (none, obs2) => runRows obs2 out hdr rs
    | .ok (some b, obs2) => runRows obs2 (out ++ [b]) hdr rs

/-- One `process(fn)` call on an already split file: the first line is the
column header (source lines 32-33); an empty file fails the `data[0]`
lookup. -/
def runFile (obs : List String) (out : List Block) : List (List String) → RunRes
  | [] => ⟨out, obs, some .malformedField⟩
  | hdr :: rows => runRows obs out hdr rows

/-- The driver (source lines 84-85): files processed in order, the
seen-name set and the output stream shared across files, stopping at the
first fatal condition. -/
def runFiles (obs : List String) (out : List Block) : List (List (List String)) → RunRes
  | [] => ⟨out, obs, none⟩
  | f :: fs =>
    match (runFile obs out f).err with
    | some _ => runFile obs out f
    | none => runFiles (runFile obs out f).obs (runFile obs out f).out fs

/-- A whole run from the initially empty seen-name set and output. -/
def runAll (files : List (List (List String))) : RunRes := runFiles [] [] files

/-- Two-digit rendering of a number below 100, as the fractional part of
Python `"\x7b:.2f\x7d"`. -/
def twoDigitStr (n : Nat) : String := (if n < 10 then "0" else "") ++ toString n

/-- Python `"\x7b:.2f\x7d".format` on a price held in cents. -/
def formatCents (c : Nat) : String := toString (c / 100) ++ "." ++ twoDigitStr (c % 100)

/-- The output template `formstring` (source lines 4-19) applied to a
block's fields, exactly as `formstring.format(...)` at lines 70-81 and
printed at line 82. -/
def render (b : Block) : String :=
  "Processor \x7b\n    manufacturer: \"Intel\",\n    name: \"" ++ b.name ++
  "\",\n    price: " ++ formatCents b.priceCents ++
  ",\n    clock_rate: " ++ b.clockRate ++
  ",\n    turbo_rate: None,\n    avx512_rate: None,\n    avx512_turbo_rate: None,\n    cores: " ++
  toString b.cores ++
  ",\n    threads: " ++ toString b.threads ++
  ",\n    avx512_fma_units: Some(" ++ toString b.avx512FmaUnits ++
  "),\n    typ: ProcessorType::" ++ b.typ ++
  ",\n    scalability: " ++ toString b.scalability ++
  ",\n    mem_support: MemoryType::DDR4_" ++ toString b.maxMemSpeed ++
  ",\n    mem_channels: " ++ toString b.memChannels ++
  ",\n\x7d,"

/-! Concrete test fixtures: the round-trip input of the specification and
small crafted inputs used as witnesses and counterexamples. -/

/-- Header line of the round-trip scenario of the specification. -/
def c1hdrLine : String := "Name;Recommended Customer Price;Sockets Supported;Product Collection;Scalability;Maximum Memory Speed;Memory Types;Max # of Memory Channels;Processor Base Frequency;# of Cores;# of Threads;# of AVX-512 FMA Units"

/-- Data line of the round-trip scenario of the specification. -/
def c1rowLine : String := "Gold 6248;$3,043.00;1S;Intel® Xeon® Scalable Processors;Scalability 1S;2933;DDR4-2933;6;2.50 GHz;20;40;1"

/-- A one-row input file: the round-trip header and data line. -/
def c1text : String := c1hdrLine ++ "\n" ++ c1rowLine

/-- The block that the program actually emits on the round-trip input. -/
def c1block : Block :=
  ⟨"Gold 6248", 1000000000, "2.50", 20, 40, 1, "XeonScalable_1S", 1, 2933, 6⟩

/-- The columns of the input schema, in header order. -/
def hdr12 : List String :=
  ["Name", "Recommended Customer Price", "Sockets Supported", "Product Collection",
   "Scalability", "Maximum Memory Speed", "Memory Types", "Max # of Memory Channels",
   "Processor Base Frequency", "# of Cores", "# of Threads", "# of AVX-512 FMA Units"]

/-- The cells of the round-trip data line. -/
def c1cells : List String :=
  ["Gold 6248", "$3,043.00", "1S", "Intel® Xeon® Scalable Processors", "Scalability 1S",
   "2933", "DDR4-2933", "6", "2.50 GHz", "20", "40", "1"]

/-- The round-trip row as a row dictionary. -/
def c1dict : List (String × String) := pyDict hdr12 c1cells

/-- A short row named Dup whose empty socket cell makes it skipped. -/
def rowSkipDup : List String := ["Dup", "", ""]

/-- A complete valid row also named Dup. -/
def rowDup : List String :=
  ["Dup", "$5.00", "1S", "Intel® Xeon® D Processor", "1S", "2133", "DDR4-2133", "2",
   "2.20 GHz", "4", "8", "1"]

/-- A skipped row named Twin. -/
def rowSkipTwin : List String := ["Twin", "", ""]

/-- A complete valid row also named Twin. -/
def rowTwin : List String :=
  ["Twin", "$9.00", "2S", "Intel® Xeon® W Processor", "2S", "2400", "DDR4-2400", "4",
   "3.10 GHz", "8", "16", "1"]

/-- A valid row whose scalability cell contains the character 3 although
its first integer is 1. -/
def rowC4 : List String :=
  ["Cex4", "$7.00", "2S", "Intel® Xeon® W Processor", "1S up to 3", "2933", "DDR4-2933",
   "6", "2.80 GHz", "6", "12", "1"]

/-- A row whose scalability cell's first integer is 3. -/
def rowBad3 : List String :=
  ["Bad3", "$7.00", "2S", "Intel® Xeon® W Processor", "3S", "2933", "DDR4-2933", "6",
   "2.80 GHz", "6", "12", "1"]

/-- A row with an unrecognized product collection string. -/
def rowBadFam : List String :=
  ["BadFam", "$7.00", "2S", "Intel® Pentium", "2S", "2933", "DDR4-2933", "6",
   "2.80 GHz", "6", "12", "1"]

/-! Helper lemmas about the extractors and the row processor. -/

/-- The appended synthetic suffix guarantees that the price scan always
finds a match, whatever the cell contains. -/
theorem priceScanAux_append_isSome (l : List Char) :
    (priceScanAux (l ++ priceSuffix)).isSome := by
  induction l with
  | nil => decide
  | cons c cs ih =>
    show (priceScanAux (c :: (cs ++ priceSuffix))).isSome
    unfold priceScanAux
    split
    · split
      · rfl
      · exact ih
    · exact ih

/-- Price extraction is total. -/
theorem extractPrice_isSome (cell : String) : (extractPrice cell).isSome :=
  priceScanAux_append_isSome cell.data

/-- A missing price column is fatal before anything else happens. -/
theorem processDict_price_keyError (obs : List String) (d : List (String × String))
    (h : pyGet d "Recommended Customer Price" = none) :
    processDict obs d = .error (.keyError "Recommended Customer Price") := by
  unfold processDict
  rw [h]

/-- A missing socket column is fatal once the price column is present. -/
theorem processDict_sockets_keyError (obs : List String) (d : List (String × String))
    (p : String) (hp : pyGet d "Recommended Customer Price" = some p)
    (hs : pyGet d "Sockets Supported" = none) :
    processDict obs d = .error (.keyError "Sockets Supported") := by
  obtain ⟨v, hv⟩ := Option.isSome_iff_exists.mp (extractPrice_isSome p)
  unfold processDict
  simp only [hp, hv, hs]

/-- A row whose socket cell is the empty string is skipped: no output, no
error, no change to the seen-name set. -/
theorem processDict_skip_of (obs : List String) (d : List (String × String))
    (p : String) (hp : pyGet d "Recommended Customer Price" = some p)
    (hs : pyGet d "Sockets Supported" = some "") :
    processDict obs d = .ok (none, obs) := by
  obtain ⟨v, hv⟩ := Option.isSome_iff_exists.mp (extractPrice_isSome p)
  unfold processDict
  simp only [hp, hv, hs, if_true]

/-- A non-skipped row whose name was already seen aborts with the
duplicate-name condition. -/
theorem processDict_dup (obs : List String) (d : List (String × String))
    (p s nm : String) (hp : pyGet d "Recommended Customer Price" = some p)
    (hs : pyGet d "Sockets Supported" = some s) (hne : s ≠ "")
    (hn : pyGet d "Name" = some nm) (hmem : nm ∈ obs) :
    processDict obs d = .error (.duplicateName nm) := by
  obtain ⟨v, hv⟩ := Option.isSome_iff_exists.mp (extractPrice_isSome p)
  unfold processDict
  simp only [hp, hv, hs]
  rw [if_neg hne]
  simp only [hn]
  rw [if_pos hmem]

/-- Complete characterization of a non-aborting row: either the socket
cell is empty and nothing is produced, or a block is emitted whose
fields are exactly the extracted cell values. -/
theorem processDict_cases (obs obs2 : List String) (d : List (String × String))
    (res : Option Block) (h : processDict obs d = .ok (res, obs2)) :
    (res = none ∧ obs2 = obs ∧ ∃ pcell, pyGet d "Recommended Customer Price" = some pcell ∧
      pyGet d "Sockets Supported" = some "") ∨
    (∃ b, res = some b ∧ obs2 = b.name :: obs ∧
      (∃ pcell, pyGet d "Recommended Customer Price" = some pcell ∧
        extractPrice pcell = some b.priceCents) ∧
      (∃ sockets, pyGet d "Sockets Supported" = some sockets ∧ sockets ≠ "" ∧
        ∃ pc tag, pyGet d "Product Collection" = some pc ∧ familyTag pc = some tag ∧
          b.typ = tag ++ "_" ++ sockets) ∧
      pyGet d "Name" = some b.name ∧ b.name ∉ obs ∧
      (∃ scalCell, pyGet d "Scalability" = some scalCell ∧
        (numberFindall scalCell).head? = some b.scalability) ∧
      (b.scalability = 1 ∨ b.scalability = 2 ∨ b.scalability = 4 ∨ b.scalability = 8) ∧
      (∃ mm mt mms, pyGet d "Maximum Memory Speed" = some mm ∧
        pyGet d "Memory Types" = some mt ∧
        listMax (numberFindall (mm ++ mt)) = some mms ∧ b.maxMemSpeed = memfix mms)) := by
  unfold processDict at h
  cases hp : pyGet d "Recommended Customer Price" with
  | none => simp [hp] at h
  | some pcell =>
  simp only [hp] at h
  cases hv : extractPrice pcell with
  | none => simp [hv] at h
  | some price =>
  simp only [hv] at h
  cases hs : pyGet d "Sockets Supported" with
  | none => simp [hs] at h
  | some sockets =>
  simp only [hs] at h
  by_cases hemp : sockets = ""
  · rw [if_pos hemp] at h
    simp only [Except.ok.injEq, Prod.mk.injEq] at h
    refine Or.inl ⟨h.1.symm, h.2.symm, pcell, rfl, ?_⟩
    rw [hemp]
  · rw [if_neg hemp] at h
    cases hn : pyGet d "Name" with
    | none => simp [hn] at h
    | some nm =>
    simp only [hn] at h
    by_cases hmem : nm ∈ obs
    · rw [if_pos hmem] at h
      simp at h
    · rw [if_neg hmem] at h
      cases hpc : pyGet d "Product Collection" with
      | none => simp [hpc] at h
      | some pc =>
      simp only [hpc] at h
      cases htag : familyTag pc with
      | none => simp [htag] at h
      | some tag =>
      simp only [htag] at h
      cases hsc : pyGet d "Scalability" with
      | none => simp [hsc] at h
      | some scalCell =>
      simp only [hsc] at h
      cases hnf : numberFindall scalCell with
      | nil => simp [hnf] at h
      | cons scale restNums =>
      simp only [hnf] at h
      by_cases hsp : scale = 1 ∨ scale = 2 ∨ scale = 4 ∨ scale = 8
      · rw [if_pos hsp] at h
        cases hmm : pyGet d "Maximum Memory Speed" with
        | none => simp [hmm] at h
        | some mm =>
        simp only [hmm] at h
        cases hmt : pyGet d "Memory Types" with
        | none => simp [hmt] at h
        | some mt =>
        simp only [hmt] at h
        cases hlm : listMax (numberFindall (mm ++ mt)) with
        | none => simp [hlm] at h
        | some mms =>
        simp only [hlm] at h
        cases hmc : pyGet d "Max # of Memory Channels" with
        | none => simp [hmc] at h
        | some mcCell =>
        simp only [hmc] at h
        cases hmci : pyInt mcCell with
        | none => simp [hmci] at h
        | some memChan =>
        simp only [hmci] at h
        cases hfreq : pyGet d "Processor Base Frequency" with
        | none => simp [hfreq] at h
        | some freq =>
        simp only [hfreq] at h
        cases hgz : ghzScan freq.data with
        | none => simp [hgz] at h
        | some clock =>
        simp only [hgz] at h
        cases hcores : pyGet d "# of Cores" with
        | none => simp [hcores] at h
        | some coresCell =>
        simp only [hcores] at h
        cases hci : pyInt coresCell with
        | none => simp [hci] at h
        | some cores =>
        simp only [hci] at h
        cases hth : pyGet d "# of Threads" with
        | none => simp [hth] at h
        | some thCell =>
        simp only [hth] at h
        cases hti : pyInt thCell with
        | none => simp [hti] at h
        | some threads =>
        simp only [hti] at h
        cases hfma : pyGet d "# of AVX-512 FMA Units" with
        | none => simp [hfma] at h
        | some fmaCell =>
        simp only [hfma] at h
        cases hfi : pyInt fmaCell with
        | none => simp [hfi] at h
        | some fma =>
        simp only [hfi] at h
        simp only [Except.ok.injEq, Prod.mk.injEq] at h
        obtain ⟨hres, hobs⟩ := h
        subst hres
        subst hobs
        exact Or.inr ⟨_, rfl, rfl, ⟨pcell, rfl, hv⟩,
          ⟨sockets, rfl, hemp, pc, tag, rfl, htag, rfl⟩, rfl, hmem,
          ⟨scalCell, rfl, by rw [hnf]; rfl⟩, hsp, ⟨mm, mt, mms, rfl, rfl, hlm, rfl⟩⟩
      · rw [if_neg hsp] at h
        simp at h

/-- Processing a row list preserves the invariant that emitted names are
pairwise distinct and all recorded in the seen-name set. -/
theorem runRows_names (hdr : List String) :
    ∀ (rows : List (List String)) (obs : List String) (out : List Block),
      (∀ s, s ∈ out.map Block.name → s ∈ obs) → (out.map Block.name).Nodup →
      ((runRows obs out hdr rows).out.map Block.name).Nodup ∧
      ∀ s, s ∈ (runRows obs out hdr rows).out.map Block.name →
        s ∈ (runRows obs out hdr rows).obs := by
  intro rows
  induction rows with
  | nil => intro obs out hsub hnd; exact ⟨hnd, hsub⟩
  | cons r rs ih =>
    intro obs out hsub hnd
    unfold runRows
    cases hpr : processRow obs hdr r with
    | error e => exact ⟨hnd, hsub⟩
    | ok p =>
      obtain ⟨ob, obs2⟩ := p
      cases ob with
      | none =>
        rcases processDict_cases obs obs2 (pyDict hdr r) none hpr with
          ⟨-, hob, -⟩ | ⟨b, hb, -⟩
        · subst hob
          exact ih _ _ hsub hnd
        · exact absurd hb.symm (Option.some_ne_none b)
      | some b =>
        rcases processDict_cases obs obs2 (pyDict hdr r) (some b) hpr with
          ⟨hno, -, -⟩ | ⟨b2, hb2, hobs2, -, -, -, hnotin, -, -, -⟩
        · exact absurd hno (Option.some_ne_none b)
        · have hbeq : b = b2 := by injection hb2
          subst hbeq
          subst hobs2
          refine ih (b.name :: obs) (out ++ [b]) ?_ ?_
          · intro s hsmem
            rw [List.map_append, List.mem_append] at hsmem
            rcases hsmem with hl | hr
            · exact List.mem_cons_of_mem _ (hsub s hl)
            · simp at hr
              simp [hr]
          · rw [List.map_append, List.nodup_append]
            refine ⟨hnd, List.nodup_singleton _, ?_⟩
            intro s hsl hsr
            simp at hsr
            subst hsr
            exact hnotin (hsub _ hsl)

/-- The whole-run version of the name invariant. -/
theorem runFiles_names :
    ∀ (files : List (List (List String))) (obs : List String) (out : List Block),
      (∀ s, s ∈ out.map Block.name → s ∈ obs) → (out.map Block.name).Nodup →
      ((runFiles obs out files).out.map Block.name).Nodup := by
  intro files
  induction files with
  | nil => intro obs out hsub hnd; exact hnd
  | cons f fs ih =>
    intro obs out hsub hnd
    unfold runFiles
    cases f with
    | nil => exact hnd
    | cons hdr rows =>
      have h := runRows_names hdr rows obs out hsub hnd
      cases herr : (runFile obs out (hdr :: rows)).err with
      | some e => exact h.1
      | none => exact ih _ _ h.2 h.1

/-- The fold underlying `listMax` yields its seed or a list element, is an
upper bound of the seed, and is an upper bound of every element. -/
theorem foldlMax_spec (xs : List Nat) :
    ∀ a : Nat, (xs.foldl Nat.max a = a ∨ xs.foldl Nat.max a ∈ xs) ∧
      a ≤ xs.foldl Nat.max a ∧ ∀ y ∈ xs, y ≤ xs.foldl Nat.max a := by
  induction xs with
  | nil => intro a; simp
  | cons x xs ih =>
    intro a
    obtain ⟨hmem, hle, hall⟩ := ih (Nat.max a x)
    have hstep : (x :: xs).foldl Nat.max a = xs.foldl Nat.max (Nat.max a x) := rfl
    refine ⟨?_, ?_, ?_⟩
    · rw [hstep]
      rcases hmem with he | hin
      · rw [he]
        rcases Nat.le_total a x with hax | hxa
        · refine Or.inr ?_
          have hx : Nat.max a x = x := Nat.max_eq_right hax
          rw [hx]
          exact List.mem_cons_self x xs
        · exact Or.inl (Nat.max_eq_left hxa)
      · exact Or.inr (List.mem_cons_of_mem x hin)
    · rw [hstep]
      exact le_trans (Nat.le_max_left a x) hle
    · intro y hy
      rw [hstep]
      rcases List.mem_cons.mp hy with hyx | hyin
      · rw [hyx]
        exact le_trans (Nat.le_max_right a x) hle
      · exact hall y hyin

/-- `listMax` is the maximum: a member of the list that bounds all
members. -/
theorem listMax_spec (l : List Nat) (m : Nat) (h : listMax l = some m) :
    m ∈ l ∧ ∀ y ∈ l, y ≤ m := by
  cases l with
  | nil => exact absurd h (by simp [listMax])
  | cons x xs =>
    have hm : m = xs.foldl Nat.max x := by
      have := h
      unfold listMax at this
      injection this with h2
      exact h2.symm
    obtain ⟨hmem, hle, hall⟩ := foldlMax_spec xs x
    subst hm
    constructor
    · rcases hmem with he | hin
      · rw [he]; exact List.mem_cons_self x xs
      · exact List.mem_cons_of_mem x hin
    · intro y hy
      rcases List.mem_cons.mp hy with hyx | hyin
      · rw [hyx]; exact hle
      · exact hall y hyin

/-- Folding digits from seed `a` shifts `a` past the remaining digits. -/
theorem natOfDigits_shift (ys : List Char) :
    ∀ a : Nat, ys.foldl (fun n c => n * 10 + digitVal c) a =
      a * 10 ^ ys.length + natOfDigits ys := by
  induction ys with
  | nil => intro a; simp [natOfDigits]
  | cons c cs ih =>
    intro a
    have h1 : (c :: cs).foldl (fun n c => n * 10 + digitVal c) a =
        cs.foldl (fun n c => n * 10 + digitVal c) (a * 10 + digitVal c) := rfl
    have h2 : natOfDigits (c :: cs) =
        cs.foldl (fun n c => n * 10 + digitVal c) (0 * 10 + digitVal c) := rfl
    rw [h1, ih (a * 10 + digitVal c), h2, ih (0 * 10 + digitVal c)]
    simp only [List.length_cons, pow_succ]
    ring

/-- The value of a concatenation of digit runs. -/
theorem natOfDigits_append (xs ys : List Char) :
    natOfDigits (xs ++ ys) = natOfDigits xs * 10 ^ ys.length + natOfDigits ys := by
  have h1 : natOfDigits (xs ++ ys) =
      ys.foldl (fun n c => n * 10 + digitVal c) (natOfDigits xs) := by
    unfold natOfDigits
    rw [List.foldl_append]
  rw [h1, natOfDigits_shift ys (natOfDigits xs)]

/-- A digit run containing the character 3 never parses to one of the
allowed scalability values 1, 2, 4 or 8. -/
theorem digit3_not_scalable (r : List Char) (h3 : '3' ∈ r) :
    ¬(natOfDigits r = 1 ∨ natOfDigits r = 2 ∨ natOfDigits r = 4 ∨ natOfDigits r = 8) := by
  obtain ⟨s, t, rfl⟩ := List.append_of_mem h3
  rw [natOfDigits_append s ('3' :: t)]
  have h1 : natOfDigits ('3' :: t) = 3 * 10 ^ t.length + natOfDigits t := by
    have h2 : natOfDigits ('3' :: t) =
        t.foldl (fun n c => n * 10 + digitVal c) (0 * 10 + digitVal '3') := rfl
    rw [h2, natOfDigits_shift t (0 * 10 + digitVal '3')]
    have hd : digitVal '3' = 3 := by decide
    rw [hd]
  rw [h1]
  cases t with
  | nil =>
    simp only [List.length_cons, List.length_nil, natOfDigits, List.foldl_nil]
    generalize natOfDigits s = vs
    simp only [pow_zero, pow_one]
    omega
  | cons c cs =>
    have hpow : 10 ≤ 10 ^ (c :: cs).length := by
      calc (10 : Nat) = 10 ^ 1 := (pow_one 10).symm
      _ ≤ 10 ^ (c :: cs).length := by
          refine Nat.pow_le_pow_right (by norm_num) ?_
          simp
    generalize natOfDigits s * 10 ^ ('3' :: c :: cs).length = vshift
    generalize hq : (10 : Nat) ^ (c :: cs).length = q at hpow
    generalize natOfDigits (c :: cs) = vtail
    omega

/-- A non-skipped fresh row with a recognized family whose scalability
cell's first digit run contains the digit 3 aborts with the
invalid-scalability condition. -/
theorem processDict_scal3_abort (obs : List String) (d : List (String × String))
    (p s nm pc tag scalCell : String) (r : List Char) (restRuns : List (List Char))
    (hp : pyGet d "Recommended Customer Price" = some p)
    (hs : pyGet d "Sockets Supported" = some s) (hne : s ≠ "")
    (hn : pyGet d "Name" = some nm) (hmem : nm ∉ obs)
    (hpc : pyGet d "Product Collection" = some pc) (htag : familyTag pc = some tag)
    (hsc : pyGet d "Scalability" = some scalCell)
    (hruns : numberRuns scalCell.data = r :: restRuns) (h3 : '3' ∈ r) :
    processDict obs d = .error (.invalidScalability (natOfDigits r)) := by
  obtain ⟨v, hv⟩ := Option.isSome_iff_exists.mp (extractPrice_isSome p)
  have hnf : numberFindall scalCell = natOfDigits r :: restRuns.map natOfDigits := by
    unfold numberFindall
    rw [hruns, List.map_cons]
  have hbad := digit3_not_scalable r h3
  unfold processDict
  simp only [hp, hv, hs]
  rw [if_neg hne]
  simp only [hn]
  rw [if_neg hmem]
  simp only [hpc, htag, hsc, hnf]
  rw [if_neg hbad]

/-- A non-skipped fresh row with an unrecognized product collection
string aborts with the unrecognized-family condition. -/
theorem processDict_family_abort (obs : List String) (d : List (String × String))
    (p s nm pc : String)
    (hp : pyGet d "Recommended Customer Price" = some p)
    (hs : pyGet d "Sockets Supported" = some s) (hne : s ≠ "")
    (hn : pyGet d "Name" = some nm) (hmem : nm ∉ obs)
    (hpc : pyGet d "Product Collection" = some pc) (htag : familyTag pc = none) :
    processDict obs d = .error (.unrecognizedFamily pc) := by
  obtain ⟨v, hv⟩ := Option.isSome_iff_exists.mp (extractPrice_isSome p)
  unfold processDict
  simp only [hp, hv, hs]
  rw [if_neg hne]
  simp only [hn]
  rw [if_neg hmem]
  simp only [hpc, htag]

/-- Appending strings concatenates their character lists. -/
theorem strData_append (a b : String) : (a ++ b).data = a.data ++ b.data := by
  cases a
  cases b
  rfl

/-- Strings with equal character lists are equal. -/
theorem strEq_of_data (a b : String) (h : a.data = b.data) : a = b := by
  cases a
  cases b
  cases h
  rfl

/-- String concatenation is associative. -/
theorem strAppend_assoc (a b c : String) : a ++ b ++ c = a ++ (b ++ c) := by
  refine strEq_of_data _ _ ?_
  rw [strData_append, strData_append, strData_append, strData_append,
    List.append_assoc]

/-- A cell starting with the text 1999 dollars yields 199900 cents
whatever follows: the scan matches at the first character. -/
theorem extractPrice_1999 (rest : String) :
    extractPrice ("$1999.00" ++ rest) = some 199900 := by
  have hdata : ("$1999.00" ++ rest).data ++ priceSuffix =
      '$' :: ('1' :: '9' :: '9' :: '9' :: '.' :: '0' :: '0' :: (rest.data ++ priceSuffix)) := by
    rw [strData_append, List.append_assoc]
    rfl
  show priceScanAux (("$1999.00" ++ rest).data ++ priceSuffix) = some 199900
  rw [hdata]
  simp only [priceScanAux, if_true]
  rw [show matchCurrencyBody
    ('1' :: '9' :: '9' :: '9' :: '.' :: '0' :: '0' :: (rest.data ++ priceSuffix)) =
    some (1999, 0) from rfl]

/-! The claims. -/

/-- C1 counterexample: on the round-trip input the single emitted block
carries price 10000000.00 (1000000000 cents), not the claimed 3043.00
(304300 cents): the comma in the cell text prevents any match of the
currency pattern inside it, so the appended synthetic suffix is matched
instead. -/
theorem c1_counterexample :
    (runAll [parseFile c1text]).out.map Block.priceCents = [1000000000] ∧
    (1000000000 : Nat) ≠ 304300 := by
  constructor
  · decide
  · decide

/-- C1 (amended): on the round-trip input the program emits exactly one
block with name Gold 6248, price 10000000.00, clock rate 2.50, 20 cores,
40 threads, one AVX-512 FMA unit, type XeonScalable_1S, scalability 1,
memory support DDR4_2933 and 6 memory channels, and the run ends without
error. -/
theorem c1_round_trip :
    runAll [parseFile c1text] = ⟨[c1block], ["Gold 6248"], none⟩ ∧
    c1block.name = "Gold 6248" ∧ c1block.priceCents = 1000000000 ∧
    c1block.clockRate = "2.50" ∧ c1block.cores = 20 ∧ c1block.threads = 40 ∧
    c1block.avx512FmaUnits = 1 ∧ c1block.typ = "XeonScalable_1S" ∧
    c1block.scalability = 1 ∧ c1block.maxMemSpeed = 2933 ∧
    c1block.memChannels = 6 := by
  refine ⟨by decide, rfl, rfl, rfl, rfl, rfl, rfl, rfl, rfl, rfl, rfl⟩

/-- C2 (amended): in every run the emitted names are pairwise distinct;
and a row whose price and socket cells are present, whose socket cell is
non-empty, and whose name was already recorded aborts the run with the
duplicate-name condition.  (A duplicate of a previously skipped row's
name does not abort, see the counterexample.) -/
theorem c2_name_uniqueness :
    (∀ files : List (List (List String)),
      ((runAll files).out.map Block.name).Nodup) ∧
    (∀ (obs : List String) (d : List (String × String)) (p s nm : String),
      pyGet d "Recommended Customer Price" = some p →
      pyGet d "Sockets Supported" = some s → s ≠ "" →
      pyGet d "Name" = some nm → nm ∈ obs →
      processDict obs d = .error (.duplicateName nm)) :=
  ⟨fun files => runFiles_names files [] [] (by simp) (by simp),
   fun obs d p s nm hp hs hne hn hmem =>
     processDict_dup obs d p s nm hp hs hne hn hmem⟩

/-- C2 witness: with Dup already seen, a complete row named Dup aborts
with the duplicate-name condition. -/
theorem c2_witness :
    processDict ["Dup"] (pyDict hdr12 rowDup) = .error (.duplicateName "Dup") :=
  c2_name_uniqueness.2 ["Dup"] (pyDict hdr12 rowDup) "$5.00" "1S" "Dup"
    (by decide) (by decide) (by decide) (by decide) (by decide)

/-- C2 counterexample: an input whose two rows both carry the name Dup,
the first with an empty socket cell, runs to completion without any
abort and emits one record. -/
theorem c2_counterexample :
    pyGet (pyDict hdr12 rowSkipDup) "Name" = pyGet (pyDict hdr12 rowDup) "Name" ∧
    (runAll [[hdr12, rowSkipDup, rowDup]]).err = none ∧
    (runAll [[hdr12, rowSkipDup, rowDup]]).out.map Block.name = ["Dup"] := by
  refine ⟨by decide, by decide, by decide⟩

/-- C3: every emitted block's memory speed is the correction function
applied to the maximum of all integers extracted from the concatenation
of the two memory cells, and the correction maps 2666 to 2667, leaves
every other value unchanged, and fixes 2667. -/
theorem c3_memory_speed :
    (∀ (obs obs2 : List String) (d : List (String × String)) (b : Block),
      processDict obs d = .ok (some b, obs2) →
      ∃ mm mt mms, pyGet d "Maximum Memory Speed" = some mm ∧
        pyGet d "Memory Types" = some mt ∧
        listMax (numberFindall (mm ++ mt)) = some mms ∧
        mms ∈ numberFindall (mm ++ mt) ∧
        (∀ y ∈ numberFindall (mm ++ mt), y ≤ mms) ∧
        b.maxMemSpeed = memfix mms) ∧
    memfix 2666 = 2667 ∧ (∀ n : Nat, n ≠ 2666 → memfix n = n) ∧
    memfix 2933 = 2933 ∧ memfix 2400 = 2400 ∧ memfix 2667 = 2667 := by
  refine ⟨?_, rfl, ?_, rfl, rfl, rfl⟩
  · intro obs obs2 d b h
    rcases processDict_cases obs obs2 d (some b) h with
      ⟨hno, -, -⟩ | ⟨b2, hb2, -, -, -, -, -, -, -, hmemspec⟩
    · exact absurd hno (Option.some_ne_none b)
    · have hbeq : b = b2 := by injection hb2
      subst hbeq
      obtain ⟨mm, mt, mms, hmm, hmt, hlm, hval⟩ := hmemspec
      obtain ⟨hin, hub⟩ := listMax_spec _ _ hlm
      exact ⟨mm, mt, mms, hmm, hmt, hlm, hin, hub, hval⟩
  · intro n hn
    unfold memfix
    rw [if_neg hn]

/-- C3 witness: the round-trip row emits with memory speed derived from
the two memory cells as specified. -/
theorem c3_witness :
    ∃ mm mt mms, pyGet c1dict "Maximum Memory Speed" = some mm ∧
      pyGet c1dict "Memory Types" = some mt ∧
      listMax (numberFindall (mm ++ mt)) = some mms ∧
      mms ∈ numberFindall (mm ++ mt) ∧
      (∀ y ∈ numberFindall (mm ++ mt), y ≤ mms) ∧
      c1block.maxMemSpeed = memfix mms :=
  c3_memory_speed.1 [] ["Gold 6248"] c1dict c1block (by rfl)

/-- C4 (amended): every emitted block's scalability value is the first
integer of the scalability cell and lies in the set 1, 2, 4, 8; and a
non-skipped fresh row with a recognized family whose scalability cell's
first integer token contains the digit 3 aborts the run with the
invalid-scalability condition.  (A cell merely containing the character 3
after a valid first integer does not abort, see the counterexample.) -/
theorem c4_scalability :
    (∀ (obs obs2 : List String) (d : List (String × String)) (b : Block),
      processDict obs d = .ok (some b, obs2) →
      (b.scalability = 1 ∨ b.scalability = 2 ∨ b.scalability = 4 ∨
        b.scalability = 8) ∧
      ∃ sc, pyGet d "Scalability" = some sc ∧
        (numberFindall sc).head? = some b.scalability) ∧
    (∀ (obs : List String) (d : List (String × String))
        (p s nm pc tag sc : String) (r : List Char) (restRuns : List (List Char)),
      pyGet d "Recommended Customer Price" = some p →
      pyGet d "Sockets Supported" = some s → s ≠ "" →
      pyGet d "Name" = some nm → nm ∉ obs →
      pyGet d "Product Collection" = some pc → familyTag pc = some tag →
      pyGet d "Scalability" = some sc →
      numberRuns sc.data = r :: restRuns → '3' ∈ r →
      processDict obs d = .error (.invalidScalability (natOfDigits r))) := by
  refine ⟨?_, ?_⟩
  · intro obs obs2 d b h
    rcases processDict_cases obs obs2 d (some b) h with
      ⟨hno, -, -⟩ | ⟨b2, hb2, -, -, -, -, -, hscal, hset, -⟩
    · exact absurd hno (Option.some_ne_none b)
    · have hbeq : b = b2 := by injection hb2
      subst hbeq
      exact ⟨hset, hscal⟩
  · intro obs d p s nm pc tag sc r restRuns hp hs hne hn hmem hpc htag hsc hruns h3
    exact processDict_scal3_abort obs d p s nm pc tag sc r restRuns
      hp hs hne hn hmem hpc htag hsc hruns h3

/-- C4 witness: a row whose scalability cell is 3S aborts with the
invalid-scalability condition. -/
theorem c4_witness :
    processDict [] (pyDict hdr12 rowBad3) =
      .error (.invalidScalability (natOfDigits ['3'])) :=
  c4_scalability.2 [] (pyDict hdr12 rowBad3) "$7.00" "2S" "Bad3"
    "Intel® Xeon® W Processor" "XeonW" "3S" ['3'] []
    (by decide) (by decide) (by decide) (by decide) (by decide)
    (by decide) (by decide) (by decide) (by decide) (by decide)

/-- C4 counterexample: a row whose scalability cell contains the
character 3 after the valid first integer 1 is emitted and the run ends
without any abort. -/
theorem c4_counterexample :
    '3' ∈ ("1S up to 3" : String).data ∧
    pyGet (pyDict hdr12 rowC4) "Scalability" = some "1S up to 3" ∧
    pyGet (pyDict hdr12 rowC4) "Sockets Supported" = some "2S" ∧
    (runAll [[hdr12, rowC4]]).err = none ∧
    (runAll [[hdr12, rowC4]]).out.map Block.scalability = [1] := by
  refine ⟨by decide, by decide, by decide, by decide, by decide⟩

/-- C5: a row with an empty socket cell produces nothing and processing
continues with the remaining rows unchanged; a non-aborting row with a
non-empty socket cell produces exactly one block. -/
theorem c5_socket_gate :
    (∀ (obs : List String) (out : List Block) (hdr r : List String)
        (rs : List (List String)) (p : String),
      pyGet (pyDict hdr r) "Recommended Customer Price" = some p →
      pyGet (pyDict hdr r) "Sockets Supported" = some "" →
      runRows obs out hdr (r :: rs) = runRows obs out hdr rs) ∧
    (∀ (obs : List String) (d : List (String × String)) (p : String),
      pyGet d "Recommended Customer Price" = some p →
      pyGet d "Sockets Supported" = some "" →
      processDict obs d = .ok (none, obs)) ∧
    (∀ (obs obs2 : List String) (d : List (String × String)) (s : String)
        (res : Option Block),
      pyGet d "Sockets Supported" = some s → s ≠ "" →
      processDict obs d = .ok (res, obs2) → res.isSome) := by
  refine ⟨?_, ?_, ?_⟩
  · intro obs out hdr r rs p hp hs
    have hpr : processRow obs hdr r = .ok (none, obs) :=
      processDict_skip_of obs (pyDict hdr r) p hp hs
    simp only [runRows, hpr]
  · intro obs d p hp hs
    exact processDict_skip_of obs d p hp hs
  · intro obs obs2 d s res hs hne h
    rcases processDict_cases obs obs2 d res h with
      ⟨hres, -, -, -, hsock⟩ | ⟨b, hb, -⟩
    · rw [hs] at hsock
      injection hsock with hempty
      exact absurd hempty hne
    · rw [hb]
      rfl

/-- C5 witness: a concrete skipped row is erased from the row loop. -/
theorem c5_witness :
    runRows [] [] hdr12 (rowSkipTwin :: [rowDup]) = runRows [] [] hdr12 [rowDup] :=
  c5_socket_gate.1 [] [] hdr12 rowSkipTwin [rowDup] "" (by decide) (by decide)

/-- C6 (amended): price extraction is total thanks to the appended
synthetic suffix; an empty cell yields the sentinel 10000000.00; a cell
beginning with 1999 dollars yields 1999.00, the first currency-formatted
number found.  (A later occurrence loses to an earlier match, see the
counterexample.) -/
theorem c6_price_extraction :
    (∀ cell : String, (extractPrice cell).isSome) ∧
    extractPrice "" = some 1000000000 ∧
    (∀ rest : String, extractPrice ("$1999.00" ++ rest) = some 199900) :=
  ⟨extractPrice_isSome, by decide, extractPrice_1999⟩

/-- C6 counterexample: a cell containing the substring 1999 dollars but
starting with 5 dollars yields 5.00, not 1999.00. -/
theorem c6_counterexample :
    hasInfix "$1999.00".data "$5.00$1999.00".data = true ∧
    extractPrice "$5.00$1999.00" = some 500 ∧ (500 : Nat) ≠ 199900 := by
  refine ⟨by decide, by decide, by decide⟩

/-- C7: the product collection cell is classified by exact string
equality into the four family tags, anything else aborts with the
unrecognized-family condition, and an emitted block's type is the tag,
an underscore, and the socket cell text. -/
theorem c7_family_classification :
    (familyTag "Intel® Xeon® Scalable Processors" = some "XeonScalable" ∧
     familyTag "2nd Generation Intel® Xeon® Scalable Processors" = some "XeonScalableV2" ∧
     familyTag "Intel® Xeon® W Processor" = some "XeonW" ∧
     familyTag "Intel® Xeon® D Processor" = some "XeonD") ∧
    (∀ pc : String, pc ≠ "Intel® Xeon® Scalable Processors" →
      pc ≠ "2nd Generation Intel® Xeon® Scalable Processors" →
      pc ≠ "Intel® Xeon® W Processor" → pc ≠ "Intel® Xeon® D Processor" →
      familyTag pc = none) ∧
    (∀ (obs : List String) (d : List (String × String)) (p s nm pc : String),
      pyGet d "Recommended Customer Price" = some p →
      pyGet d "Sockets Supported" = some s → s ≠ "" →
      pyGet d "Name" = some nm → nm ∉ obs →
      pyGet d "Product Collection" = some pc → familyTag pc = none →
      processDict obs d = .error (.unrecognizedFamily pc)) ∧
    (∀ (obs obs2 : List String) (d : List (String × String)) (b : Block),
      processDict obs d = .ok (some b, obs2) →
      ∃ pc tag s, pyGet d "Product Collection" = some pc ∧
        familyTag pc = some tag ∧ pyGet d "Sockets Supported" = some s ∧
        s ≠ "" ∧ b.typ = tag ++ "_" ++ s) := by
  refine ⟨⟨rfl, rfl, rfl, rfl⟩, ?_, ?_, ?_⟩
  · intro pc h1 h2 h3 h4
    unfold familyTag
    rw [if_neg h1, if_neg h2, if_neg h3, if_neg h4]
  · intro obs d p s nm pc hp hs hne hn hmem hpc htag
    exact processDict_family_abort obs d p s nm pc hp hs hne hn hmem hpc htag
  · intro obs obs2 d b h
    rcases processDict_cases obs obs2 d (some b) h with
      ⟨hno, -, -⟩ | ⟨b2, hb2, -, -, hsock, -, -, -, -, -⟩
    · exact absurd hno (Option.some_ne_none b)
    · have hbeq : b = b2 := by injection hb2
      subst hbeq
      obtain ⟨sockets, hsk, hne, pc, tag, hpc, htag, htyp⟩ := hsock
      exact ⟨pc, tag, sockets, hpc, htag, hsk, hne, htyp⟩

/-- C7 witness: a row with the product collection Intel Pentium aborts
with the unrecognized-family condition. -/
theorem c7_witness :
    processDict [] (pyDict hdr12 rowBadFam) =
      .error (.unrecognizedFamily "Intel® Pentium") :=
  c7_family_classification.2.2.1 [] (pyDict hdr12 rowBadFam) "$7.00" "2S"
    "BadFam" "Intel® Pentium" (by decide) (by decide) (by decide) (by decide)
    (by decide) (by decide) (by decide)

/-- C8: every rendered block shows the three non-derivable rate fields as
the absent marker None, wraps the FMA-unit count in the present wrapper
Some, renders memory support as the fixed DDR4 tag concatenated with the
normalized speed integer, and ends with a trailing comma. -/
theorem c8_render_markers (b : Block) :
    (∃ u v, render b = u ++
      "turbo_rate: None,\n    avx512_rate: None,\n    avx512_turbo_rate: None," ++ v) ∧
    (∃ u v, render b = u ++
      ("avx512_fma_units: Some(" ++ toString b.avx512FmaUnits ++ "),") ++ v) ∧
    (∃ u v, render b = u ++
      ("mem_support: MemoryType::DDR4_" ++ toString b.maxMemSpeed ++ ",") ++ v) ∧
    (∃ u, render b = u ++ ",") := by
  refine ⟨?_, ?_, ?_, ?_⟩
  · refine ⟨"Processor \x7b\n    manufacturer: \"Intel\",\n    name: \"" ++ b.name ++
      "\",\n    price: " ++ formatCents b.priceCents ++
      ",\n    clock_rate: " ++ b.clockRate ++ ",\n    ",
      "\n    cores: " ++ toString b.cores ++
      ",\n    threads: " ++ toString b.threads ++
      ",\n    avx512_fma_units: Some(" ++ toString b.avx512FmaUnits ++
      "),\n    typ: ProcessorType::" ++ b.typ ++
      ",\n    scalability: " ++ toString b.scalability ++
      ",\n    mem_support: MemoryType::DDR4_" ++ toString b.maxMemSpeed ++
      ",\n    mem_channels: " ++ toString b.memChannels ++
      ",\n\x7d,", ?_⟩
    have hsplit :
        ",\n    turbo_rate: None,\n    avx512_rate: None,\n    avx512_turbo_rate: None,\n    cores: " =
        ",\n    " ++
          "turbo_rate: None,\n    avx512_rate: None,\n    avx512_turbo_rate: None," ++
          "\n    cores: " := by decide
    simp only [render]
    rw [hsplit]
    simp only [strAppend_assoc]
  · refine ⟨"Processor \x7b\n    manufacturer: \"Intel\",\n    name: \"" ++ b.name ++
      "\",\n    price: " ++ formatCents b.priceCents ++
      ",\n    clock_rate: " ++ b.clockRate ++
      ",\n    turbo_rate: None,\n    avx512_rate: None,\n    avx512_turbo_rate: None,\n    cores: " ++
      toString b.cores ++
      ",\n    threads: " ++ toString b.threads ++ ",\n    ",
      "\n    typ: ProcessorType::" ++ b.typ ++
      ",\n    scalability: " ++ toString b.scalability ++
      ",\n    mem_support: MemoryType::DDR4_" ++ toString b.maxMemSpeed ++
      ",\n    mem_channels: " ++ toString b.memChannels ++
      ",\n\x7d,", ?_⟩
    have hsplit1 : ",\n    avx512_fma_units: Some(" =
        ",\n    " ++ "avx512_fma_units: Some(" := by decide
    have hsplit2 : "),\n    typ: ProcessorType::" =
        ")," ++ "\n    typ: ProcessorType::" := by decide
    simp only [render]
    rw [hsplit1, hsplit2]
    simp only [strAppend_assoc]
  · refine ⟨"Processor \x7b\n    manufacturer: \"Intel\",\n    name: \"" ++ b.name ++
      "\",\n    price: " ++ formatCents b.priceCents ++
      ",\n    clock_rate: " ++ b.clockRate ++
      ",\n    turbo_rate: None,\n    avx512_rate: None,\n    avx512_turbo_rate: None,\n    cores: " ++
      toString b.cores ++
      ",\n    threads: " ++ toString b.threads ++
      ",\n    avx512_fma_units: Some(" ++ toString b.avx512FmaUnits ++
      "),\n    typ: ProcessorType::" ++ b.typ ++
      ",\n    scalability: " ++ toString b.scalability ++ ",\n    ",
      "\n    mem_channels: " ++ toString b.memChannels ++ ",\n\x7d,", ?_⟩
    have hsplit1 : ",\n    mem_support: MemoryType::DDR4_" =
        ",\n    " ++ "mem_support: MemoryType::DDR4_" := by decide
    have hsplit2 : ",\n    mem_channels: " = "," ++ "\n    mem_channels: " := by decide
    simp only [render]
    rw [hsplit1, hsplit2]
    simp only [strAppend_assoc]
  · refine ⟨"Processor \x7b\n    manufacturer: \"Intel\",\n    name: \"" ++ b.name ++
      "\",\n    price: " ++ formatCents b.priceCents ++
      ",\n    clock_rate: " ++ b.clockRate ++
      ",\n    turbo_rate: None,\n    avx512_rate: None,\n    avx512_turbo_rate: None,\n    cores: " ++
      toString b.cores ++
      ",\n    threads: " ++ toString b.threads ++
      ",\n    avx512_fma_units: Some(" ++ toString b.avx512FmaUnits ++
      "),\n    typ: ProcessorType::" ++ b.typ ++
      ",\n    scalability: " ++ toString b.scalability ++
      ",\n    mem_support: MemoryType::DDR4_" ++ toString b.maxMemSpeed ++
      ",\n    mem_channels: " ++ toString b.memChannels ++ ",\n\x7d", ?_⟩
    have hsplit : ",\n\x7d," = ",\n\x7d" ++ "," := by decide
    simp only [render]
    rw [hsplit]
    simp only [strAppend_assoc]

/-- C9: a skipped row leaves the seen-name set untouched, an emitted row
records exactly its own name, and an input whose second row repeats the
name of an earlier skipped row completes without abort, emitting the
second row only. -/
theorem c9_skip_names :
    (∀ (obs : List String) (d : List (String × String)) (p : String),
      pyGet d "Recommended Customer Price" = some p →
      pyGet d "Sockets Supported" = some "" →
      processDict obs d = .ok (none, obs)) ∧
    (∀ (obs obs2 : List String) (d : List (String × String)) (b : Block),
      processDict obs d = .ok (some b, obs2) →
      obs2 = b.name :: obs ∧ b.name ∉ obs) ∧
    ((runAll [[hdr12, rowSkipTwin, rowTwin]]).err = none ∧
     (runAll [[hdr12, rowSkipTwin, rowTwin]]).out.map Block.name = ["Twin"] ∧
     pyGet (pyDict hdr12 rowSkipTwin) "Name" = pyGet (pyDict hdr12 rowTwin) "Name") := by
  refine ⟨fun obs d p hp hs => processDict_skip_of obs d p hp hs, ?_,
    by decide, by decide, by decide⟩
  intro obs obs2 d b h
  rcases processDict_cases obs obs2 d (some b) h with
    ⟨hno, -, -⟩ | ⟨b2, hb2, hobs2, -, -, -, hnotin, -, -, -⟩
  · exact absurd hno (Option.some_ne_none b)
  · have hbeq : b = b2 := by injection hb2
    subst hbeq
    exact ⟨hobs2, hnotin⟩

/-- C9 witness: a skipped row whose name Twin is already in the seen-name
set neither aborts nor changes the set. -/
theorem c9_witness :
    processDict ["Twin"] (pyDict hdr12 rowSkipTwin) = .ok (none, ["Twin"]) :=
  c9_skip_names.1 ["Twin"] (pyDict hdr12 rowSkipTwin) "" (by decide) (by decide)

/-- C10: the price lookup happens before the empty-socket skip, so a row
missing the price column is fatal regardless of its socket cell, and a
row with a price cell but no socket column is fatal too. -/
theorem c10_price_before_skip :
    (∀ (obs : List String) (d : List (String × String)),
      pyGet d "Recommended Customer Price" = none →
      processDict obs d = .error (.keyError "Recommended Customer Price")) ∧
    (∀ (obs : List String) (d : List (String × String)) (p : String),
      pyGet d "Recommended Customer Price" = some p →
      pyGet d "Sockets Supported" = none →
      processDict obs d = .error (.keyError "Sockets Supported")) :=
  ⟨processDict_price_keyError, processDict_sockets_keyError⟩

/-- C10 witness: a row that would be skipped but lacks the price column
fails with the key error, and a short data line missing the socket
column fails with the socket key error. -/
theorem c10_witness :
    processDict [] [("Sockets Supported", ""), ("Name", "X")] =
      .error (.keyError "Recommended Customer Price") ∧
    processDict [] (pyDict hdr12 ["Short", "$5.00"]) =
      .error (.keyError "Sockets Supported") :=
  ⟨c10_price_before_skip.1 [] [("Sockets Supported", ""), ("Name", "X")] (by decide),
   c10_price_before_skip.2 [] (pyDict hdr12 ["Short", "$5.00"]) "$5.00"
     (by decide) (by decide)⟩

end Sim2020
